import Mathlib

/-!
Shallow embedding of the Polymarket scanning/ordering bot
(`src/services/polymarket_service.py`, `src/services/monitor_service.py`,
`src/services/telegram_service.py`, `src/utils/settings_store.py`).

Modelling conventions:
* Python floats are embedded as `ℚ`; all comparisons in the source are
  order comparisons, which `ℚ` preserves.
* A JSON field that may be absent is an `Option`; a numeric field holding a
  non-numeric value (so that `float(...)` raises, or `isinstance` fails) is
  modelled as `none` on the paths where the source treats those identically.
* Python truthiness of strings (`a or b`, `if not x`) is modelled explicitly:
  `none` and `some ""` are falsy.
* Timestamps: the source parses ISO strings with `datetime.fromisoformat`.
  The parse itself is abstracted: an expiry field is
  `Option (Option Int)` — `none` = field absent (or an empty, falsy string),
  `some none` = present but unparsable, `some (some t)` = parses to epoch
  second `t`.  Evaluation time `now : Int` is a parameter.
* Network calls are oracles passed as function arguments; a call that raises
  (timeout, malformed body) is an oracle answering `none`.
-/

set_option autoImplicit false

namespace PolyBot

/-- Python `a or b` on possibly-absent strings: `None` and `""` are falsy. -/
def pyOrS (a : Option String) (b : Option String) : Option String :=
  match a with
  | some s => if s = "" then b else some s
  | none => b

/-- Python truthiness filter on an optional string: `if x:` succeeds exactly
when the result is `some` here. -/
def truthyS (a : Option String) : Option String :=
  match a with
  | some s => if s = "" then none else some s
  | none => none

/-- Python `a or b` on possibly-absent floats: `None` and `0.0` are falsy. -/
def pyOrQ (a : Option ℚ) (b : ℚ) : ℚ :=
  match a with
  | some v => if v = 0 then b else v
  | none => b

/-- Python `str(x)` on an optional string: `str(None) = "None"`. -/
def pyStr (a : Option String) : String :=
  match a with
  | some s => s
  | none => "None"

/-- ASCII lower-casing, `str.lower()`. -/
def lowerStr (s : String) : String :=
  String.mk (s.data.map Char.toLower)

/-- ASCII upper-casing, `str.upper()`. -/
def upperStr (s : String) : String :=
  String.mk (s.data.map Char.toUpper)

/-- Drop leading whitespace from a character list. -/
def dropLeadWS : List Char → List Char
  | [] => []
  | c :: rest => if c.isWhitespace then dropLeadWS rest else c :: rest

/-- Python `str.strip()`: whitespace removed from both ends. -/
def trimStr (s : String) : String :=
  String.mk (dropLeadWS ((dropLeadWS s.data.reverse).reverse))

/-- The normalisation `str(o or "").strip().lower()` applied to outcome
names in `polymarket_service.py`. -/
def normOutcome (s : String) : String :=
  lowerStr (trimStr s)

/-- A token record as it appears in Gamma resolution responses and embedded
token arrays: `{outcome, token_id, asset_id, tokenId, id}`. -/
structure TokenRec where
  outcome : Option String
  token_id : Option String
  asset_id : Option String
  tokenId : Option String
  id : Option String
deriving DecidableEq

/-- The id extractor `get_id` in `resolve_no_token_id`:
`t.get("token_id") or t.get("asset_id") or t.get("tokenId") or t.get("id")`,
composed with the caller's `if tid:` truthiness check. -/
def getId (t : TokenRec) : Option String :=
  truthyS (pyOrS t.token_id (pyOrS t.asset_id (pyOrS t.tokenId t.id)))

/-- A raw market record from the Gamma public-search catalog
(the shape consumed by `_is_active_market`, `_derive_no_bid`,
`analyze_market_no` and `resolve_no_token_id`). -/
structure GammaMarket where
  nonEmpty : Bool
  active : Option Bool
  closed : Option Bool
  archived : Option Bool
  acceptingOrders : Option Bool
  endDate : Option (Option Int)
  endDateIso : Option (Option Int)
  outcomes : List String
  bestBid : Option ℚ
  bestAsk : Option ℚ
  outcomePrices : List ℚ
  id : Option String
  market_id : Option String
  question : Option String
  volume : Option ℚ
  volume_24h : Option ℚ
  volumeNum : Option ℚ
  slug : Option String
  eventSlug : Option String
  event_slug : Option String
  condition_id : Option String
  conditionId : Option String
  tokens : List TokenRec
deriving DecidableEq

/-- The expiry field selection `m.get("endDate") or m.get("endDateIso")`
in `_is_active_market`. -/
def endRaw (m : GammaMarket) : Option (Option Int) :=
  match m.endDate with
  | some v => some v
  | none => m.endDateIso

/-- Embedding of `_is_active_market(m)` evaluated at time `now`.
The source first rejects a falsy (empty) record (`if not m`), then
returns `False` on an explicit `active is False`, `closed is True`,
`archived is True` or `acceptingOrders is False`; otherwise it rejects
only an expiry with `end < now`, and treats an absent or unparsable
expiry as active.  `m.nonEmpty` carries the dict truthiness of the raw
record: `false` exactly for an empty record `{}`. -/
def isActiveMarket (m : GammaMarket) (now : Int) : Bool :=
  if m.nonEmpty = false then false
  else if m.active = some false then false
  else if m.closed = some true then false
  else if m.archived = some true then false
  else if m.acceptingOrders = some false then false
  else
    match endRaw m with
    | none => true
    | some none => true
    | some (some endT) => if endT < now then false else true

/-- The `outcomePrices` fallback path of `_derive_no_bid`: index of the
first outcome named "no", bounds-checked against the parallel price array,
accepting only a non-negative value. -/
def deriveNoBidFallback (m : GammaMarket) : Option ℚ :=
  match m.outcomes.findIdx? (fun o => normOutcome o == "no") with
  | some idx =>
      match m.outcomePrices.get? idx with
      | some p => if p ≥ 0 then some p else none
      | none => none
  | none => none

/-- Embedding of `_derive_no_bid(m)`.  When both `bestBid` and `bestAsk`
are present and the outcome list is non-empty: if the first outcome is
"yes" the NO bid is `1 - bestAsk`; if it is "no" the NO bid is `bestBid`
directly; otherwise (and whenever a field is missing) fall back to the
`outcomePrices` array. -/
def deriveNoBid (m : GammaMarket) : Option ℚ :=
  match m.bestBid, m.bestAsk, m.outcomes with
  | some bb, some ba, o0 :: _ =>
      if normOutcome o0 = "yes" then some (1 - ba)
      else if normOutcome o0 = "no" then some bb
      else deriveNoBidFallback m
  | _, _, _ => deriveNoBidFallback m

/-- An opportunity record as built by `analyze_market_no` and the two
branches of `find_eligible_markets` (keys absent in a given branch are
`none`). -/
structure Opportunity where
  marketId : Option String
  question : Option String
  noPrice : ℚ
  noTokenId : Option String
  slug : Option String
  eventSlug : Option String
  volume24h : ℚ
  url : Option String
deriving DecidableEq

/-- The market-id fallback chain of `analyze_market_no`:
`m.get("id") or m.get("market_id") or m.get("condition_id") or
m.get("conditionId") or m.get("slug")`. -/
def gammaMarketId (m : GammaMarket) : Option String :=
  pyOrS m.id (pyOrS m.market_id (pyOrS m.condition_id (pyOrS m.conditionId m.slug)))

/-- The 24h-volume fallback chain of `analyze_market_no`:
`m.get("volume") or m.get("volume_24h") or m.get("volumeNum") or 0`. -/
def gammaVolume (m : GammaMarket) : ℚ :=
  pyOrQ m.volume (pyOrQ m.volume_24h (pyOrQ m.volumeNum 0))

/-- Embedding of `analyze_market_no(m, max_price)`: reject inactive
markets, derive the NO bid, reject a missing or non-positive price, and
accept exactly when the price is at most `maxPrice`. -/
def analyzeMarketNo (m : GammaMarket) (now : Int) (maxPrice : ℚ) : Option Opportunity :=
  if isActiveMarket m now = false then none
  else
    match deriveNoBid m with
    | none => none
    | some noPrice =>
        if noPrice ≤ 0 then none
        else if noPrice ≤ maxPrice then
          some
            { marketId := gammaMarketId m
              question := m.question
              noPrice := noPrice
              noTokenId := none
              slug := none
              eventSlug := m.eventSlug
              volume24h := gammaVolume m
              url :=
                match truthyS m.slug with
                | some s => some ("https://polymarket.com/event/" ++ s)
                | none => none }
        else none

/-- A token inside a CLOB market record, with the price-field spellings
probed by the fallback branch of `find_eligible_markets`.  A field whose
JSON value is not an `int`/`float` (so `isinstance` fails) is `none`. -/
structure ClobToken where
  outcome : Option String
  price : Option ℚ
  lastPrice : Option ℚ
  last_price : Option ℚ
  bestOffer : Option ℚ
  best_offer : Option ℚ
  bestBid : Option ℚ
  token_id : Option String
  tokenId : Option String
deriving DecidableEq

/-- The price probe of fallback Case 1: first field among
`price, lastPrice, last_price, bestOffer, best_offer, bestBid` that is
numeric and strictly positive. -/
def firstPosQ : List (Option ℚ) → Option ℚ
  | [] => none
  | some x :: rest => if 0 < x then some x else firstPosQ rest
  | none :: rest => firstPosQ rest

/-- An outcome object in the flatter CLOB shape of fallback Case 2:
`{name, bestBid, bestAsk}`.  A `bestBid`/`bestAsk` whose `float(...)`
conversion fails is `none` (the source maps that failure to `0.0`,
as does `x or 0` on an absent value). -/
structure ClobOutcome where
  name : Option String
  bestBid : Option ℚ
  bestAsk : Option ℚ
deriving DecidableEq

/-- A raw market record from the CLOB `/markets` listing. -/
structure ClobMarket where
  closed : Option Bool
  archived : Option Bool
  condition_id : Option String
  conditionId : Option String
  id : Option String
  question : Option String
  title : Option String
  tokens : List ClobToken
  outcomes : List ClobOutcome
  volume : Option ℚ
  slug : Option String
  eventSlug : Option String
deriving DecidableEq

/-- Python `float(x or 0)` with conversion failures folded to `0.0`. -/
def qOrZero (a : Option ℚ) : ℚ :=
  match a with
  | some v => v
  | none => 0

/-- The price/token extraction of one CLOB fallback record, before the
threshold filter.  `none` models the early `continue` of Case 1 when the
token array has no "no" outcome; otherwise the pair is
(derived price, token id).  `resolveClob` is the
`resolve_no_token_id` lookup Case 2 performs, as an oracle. -/
def clobPriceToken (resolveClob : ClobMarket → Option String) (m : ClobMarket) :
    Option (Option ℚ × Option String) :=
  if m.tokens ≠ [] then
    match m.tokens.find? (fun t => lowerStr (t.outcome.getD "") == "no") with
    | none => none
    | some t =>
        some
          (firstPosQ [t.price, t.lastPrice, t.last_price, t.bestOffer, t.best_offer, t.bestBid],
            pyOrS t.token_id t.tokenId)
  else if m.outcomes ≠ [] then
    let noOutcome := m.outcomes.find? (fun o => lowerStr (o.name.getD "") == "no")
    let yesIsFirst :=
      match m.outcomes with
      | o0 :: _ => lowerStr (o0.name.getD "") == "yes"
      | [] => false
    let bestBid := qOrZero (noOutcome.bind (fun o => o.bestBid))
    let priceOpt : Option ℚ :=
      if 0 < bestBid then some bestBid
      else if yesIsFirst then
        match m.outcomes with
        | o0 :: _ =>
            let yesBestAsk := qOrZero o0.bestAsk
            if 0 < yesBestAsk then some (1 - yesBestAsk) else none
        | [] => none
      else none
    some (priceOpt, truthyS (resolveClob m))
  else some (none, none)

/-- One CLOB fallback record of `find_eligible_markets`: activity check,
price/token extraction, then the filter
`price is None or price <= 0 or price > max_price`. -/
def clobAnalyze (resolveClob : ClobMarket → Option String) (maxPrice : ℚ)
    (m : ClobMarket) : Option Opportunity :=
  if m.closed = some true ∨ m.archived = some true then none
  else
    match clobPriceToken resolveClob m with
    | none => none
    | some (priceOpt, tokenId) =>
        match priceOpt with
        | none => none
        | some p =>
            if p ≤ 0 then none
            else if maxPrice < p then none
            else
              some
                { marketId := pyOrS m.condition_id (pyOrS m.conditionId m.id)
                  question := pyOrS m.question (pyOrS m.title (some "Unknown"))
                  noPrice := p
                  noTokenId := tokenId
                  slug := none
                  eventSlug := none
                  volume24h := pyOrQ m.volume 0
                  url := none }

/-- The CLOB fallback loop of `find_eligible_markets`. -/
def clobEligible (resolveClob : ClobMarket → Option String) (maxPrice : ℚ) :
    List ClobMarket → List Opportunity
  | [] => []
  | m :: rest =>
      match clobAnalyze resolveClob maxPrice m with
      | none => clobEligible resolveClob maxPrice rest
      | some o => o :: clobEligible resolveClob maxPrice rest

/-- The per-opportunity enrichment in the Gamma loop of
`find_eligible_markets`: attach the resolved token id when the resolver
returned a truthy id, and the market slug when present.  Resolver
failures (including raised exceptions) are oracle answers that are not
truthy; the opportunity is appended regardless. -/
def gammaEnrich (resolve : GammaMarket → Option String) (m : GammaMarket)
    (opp : Opportunity) : Opportunity :=
  let opp1 :=
    match truthyS (resolve m) with
    | some tid => { opp with noTokenId := some tid }
    | none => opp
  match truthyS m.slug with
  | some s => { opp1 with slug := some s }
  | none => opp1

/-- The primary (Gamma public-search) loop of `find_eligible_markets`. -/
def gammaEligible (resolve : GammaMarket → Option String) (now : Int) (maxPrice : ℚ) :
    List GammaMarket → List Opportunity
  | [] => []
  | m :: rest =>
      match analyzeMarketNo m now maxPrice with
      | none => gammaEligible resolve now maxPrice rest
      | some opp => gammaEnrich resolve m opp :: gammaEligible resolve now maxPrice rest

/-- Result of one `find_eligible_markets` call: the returned list and the
number of times the secondary (CLOB) catalog fetch was invoked. -/
structure FindResult where
  eligible : List Opportunity
  clobFetches : Nat
deriving DecidableEq

/-- Embedding of `find_eligible_markets(max_price)`: the Gamma primary
path is returned when it is non-empty; otherwise the CLOB catalog is
fetched (exactly one `fetch_markets()` call) and its fallback analysis is
returned.  `gammaMarkets` and `clobMarkets` are the two catalog fetch
results. -/
def findEligibleMarkets (resolve : GammaMarket → Option String)
    (resolveClob : ClobMarket → Option String) (now : Int) (maxPrice : ℚ)
    (gammaMarkets : List GammaMarket) (clobMarkets : List ClobMarket) : FindResult :=
  let primary := gammaEligible resolve now maxPrice gammaMarkets
  if primary ≠ [] then { eligible := primary, clobFetches := 0 }
  else { eligible := clobEligible resolveClob maxPrice clobMarkets, clobFetches := 1 }

/-- A market record inside a Gamma resolution response (events-by-slug,
markets-by-slug, markets-by-condition-id): only its token array is read. -/
structure ResMarket where
  tokens : List TokenRec
deriving DecidableEq

/-- The nested scan of `resolve_no_token_id` over one response market's
tokens: first token whose `str(outcome).upper()` is "NO" and whose
extracted id is truthy. -/
def scanTokens : List TokenRec → Option String
  | [] => none
  | t :: rest =>
      if upperStr (pyStr t.outcome) = "NO" then
        match getId t with
        | some tid => some tid
        | none => scanTokens rest
      else scanTokens rest

/-- The scan of `resolve_no_token_id` over the markets of one response. -/
def scanMarkets : List ResMarket → Option String
  | [] => none
  | mk :: rest =>
      match scanTokens mk.tokens with
      | some tid => some tid
      | none => scanMarkets rest

/-- The Gamma resolution endpoints as an oracle.  Each strategy of
`resolve_no_token_id` performs its own HTTP GET; an answer of `none`
models a raised exception (timeout, 404, malformed body), which the
source swallows to fall through to the next strategy. -/
structure Net where
  eventsBySlug : String → Option (List ResMarket)
  marketsBySlug : String → Option (List ResMarket)
  marketsByCond : String → Option (List ResMarket)

/-- One network call made by `resolve_no_token_id`, for call counting. -/
inductive NetCall where
  | events (slug : String)
  | marketsSlug (slug : String)
  | marketsCond (cond : String)
deriving DecidableEq

/-- Strategy 3 of `resolve_no_token_id`: lookup by condition id
(`market.get("condition_id") or market.get("conditionId")`). -/
def resolveStep3 (net : Net) (m : GammaMarket) (calls : List NetCall) :
    Option String × List NetCall :=
  match truthyS (pyOrS m.condition_id m.conditionId) with
  | some c => ((net.marketsByCond c).bind scanMarkets, calls ++ [NetCall.marketsCond c])
  | none => (none, calls)

/-- Strategy 2 of `resolve_no_token_id`: lookup by market slug. -/
def resolveStep2 (net : Net) (m : GammaMarket) (calls : List NetCall) :
    Option String × List NetCall :=
  match truthyS m.slug with
  | some s =>
      match (net.marketsBySlug s).bind scanMarkets with
      | some tid => (some tid, calls ++ [NetCall.marketsSlug s])
      | none => resolveStep3 net m (calls ++ [NetCall.marketsSlug s])
  | none => resolveStep3 net m calls

/-- Embedding of `resolve_no_token_id(market)`.  `base` is the configured
Gamma endpoint (`""` models an unset endpoint, returning immediately).
Strategies run in fixed order — event slug, market slug, condition id —
each performing one network call when its key is truthy, returning on the
first truthy id found.  The second component is the list of network calls
made, in order.  Note the source never inspects `market["tokens"]` here. -/
def resolveNoTokenId (net : Net) (base : String) (m : GammaMarket) :
    Option String × List NetCall :=
  if base = "" then (none, [])
  else
    match truthyS (pyOrS m.eventSlug m.event_slug) with
    | some s =>
        match (net.eventsBySlug s).bind scanMarkets with
        | some tid => (some tid, [NetCall.events s])
        | none => resolveStep2 net m [NetCall.events s]
    | none => resolveStep2 net m []

/-- A submission response `resp` from `place_limit_order`, with the id
spellings probed by `place_buy_orders`.  A non-dict response is modelled
by all fields `none`. -/
structure SubmitResp where
  order_id : Option String
  id : Option String
  orderId : Option String
deriving DecidableEq

/-- The order-id extraction
`resp.get("order_id") or resp.get("id") or resp.get("orderId")`. -/
def extractOrderId (r : SubmitResp) : Option String :=
  pyOrS r.order_id (pyOrS r.id r.orderId)

/-- Decimal-digit run at the head of a character list. -/
def takeDigits : List Char → List Char
  | [] => []
  | c :: rest => if c.isDigit then c :: takeDigits rest else []

/-- Drop the `\s*` run after the literal in the minimum-size pattern. -/
def dropWhiteSpace : List Char → List Char
  | [] => []
  | c :: rest => if c.isWhitespace then dropWhiteSpace rest else c :: rest

/-- Numeric value of a digit run. -/
def digitsToNat (ds : List Char) : Nat :=
  ds.foldl (fun acc c => acc * 10 + (c.toNat - 48)) 0

/-- Match `minimum:\s*(\d+)` anchored at the head of `cs`. -/
def matchMinimumAt (cs : List Char) : Option Nat :=
  if cs.take 8 = "minimum:".data then
    let ds := takeDigits (dropWhiteSpace (cs.drop 8))
    if ds = [] then none else some (digitsToNat ds)
  else none

/-- Leftmost match of `minimum:\s*(\d+)`, as `re.search` finds it. -/
def searchMinimum : List Char → Option Nat
  | [] => none
  | c :: rest =>
      match matchMinimumAt (c :: rest) with
      | some n => some n
      | none => searchMinimum rest

/-- The minimum-size extraction of `place_buy_orders`:
`re.search(r"minimum:\s*(\d+)", msg)` over the exception message. -/
def minimumFrom (msg : String) : Option Nat :=
  searchMinimum msg.data

/-- An opportunity dict as consumed by `place_buy_orders` (the keys it
reads; the keys only the token-resolution oracle reads are folded into
the oracle). -/
structure BuyOp where
  token_id : Option String
  noTokenId : Option String
  price : Option ℚ
deriving DecidableEq

/-- Status of one order result. -/
inductive OStatus where
  | submitted
  | error
deriving DecidableEq

/-- One result dict appended by `place_buy_orders`; the source spreads
the input opportunity into the dict (`{**op, ...}`), kept here as the
`op` field, with keys absent on a given path modelled as `none`. -/
structure OrderResult where
  op : BuyOp
  status : OStatus
  order_id : Option String
  token_id : Option String
  usedPrice : Option ℚ
  raw : Option SubmitResp
  retryWithMin : Option Nat
  error : Option String
deriving DecidableEq

/-- The terminal message of a failed minimum-size retry:
`f"retry_failed_min_size_{min_required}: {e_retry}"`. -/
def retryFailMsg (n : Nat) (e2 : String) : String :=
  "retry_failed_min_size_" ++ toString n ++ ": " ++ e2

/-- Processing of one opportunity inside `place_buy_orders`.
`resolveClob` is the `_resolve_clob_no_token_id` lookup as an oracle;
`submit` maps a requested size to the outcome of
`place_limit_order(token_id, "BUY", price, size)` — `Except.error msg`
models a raised exception with message `msg`.  Returns the appended
result and the list of submission sizes attempted, in order. -/
def placeOne (resolveClob : BuyOp → Option String)
    (submit : Nat → Except String SubmitResp) (maxShares : Nat) (maxPrice : ℚ)
    (op : BuyOp) : OrderResult × List Nat :=
  let tid0 := truthyS (pyOrS op.token_id op.noTokenId)
  let tid :=
    match tid0 with
    | some t => some t
    | none => truthyS (resolveClob op)
  match tid with
  | none =>
      ({ op := op, status := OStatus.error, order_id := none, token_id := none,
         usedPrice := none, raw := none, retryWithMin := none,
         error := some "Missing token_id" }, [])
  | some t =>
      let p := min (op.price.getD maxPrice) maxPrice
      match submit maxShares with
      | Except.ok resp =>
          ({ op := op, status := OStatus.submitted, order_id := extractOrderId resp,
             token_id := some t, usedPrice := some p, raw := some resp,
             retryWithMin := none, error := none }, [maxShares])
      | Except.error e =>
          match minimumFrom e with
          | some n =>
              if maxShares < n then
                match submit n with
                | Except.ok resp2 =>
                    ({ op := op, status := OStatus.submitted,
                       order_id := extractOrderId resp2, token_id := some t,
                       usedPrice := some p, raw := some resp2,
                       retryWithMin := some n, error := none }, [maxShares, n])
                | Except.error e2 =>
                    ({ op := op, status := OStatus.error, order_id := none,
                       token_id := none, usedPrice := none, raw := none,
                       retryWithMin := none, error := some (retryFailMsg n e2) },
                      [maxShares, n])
              else
                ({ op := op, status := OStatus.error, order_id := none,
                   token_id := none, usedPrice := none, raw := none,
                   retryWithMin := none, error := some e }, [maxShares])
          | none =>
              ({ op := op, status := OStatus.error, order_id := none,
                 token_id := none, usedPrice := none, raw := none,
                 retryWithMin := none, error := some e }, [maxShares])

/-- The batch loop of `place_buy_orders(opportunities, max_shares,
max_price)`: one result appended per opportunity, every per-opportunity
failure absorbed.  `submit i` is the submission oracle for the `i`-th
opportunity (distinct opportunities hit distinct order books). -/
def placeBuyOrdersAux (resolveClob : BuyOp → Option String)
    (submit : Nat → Nat → Except String SubmitResp) (maxShares : Nat)
    (maxPrice : ℚ) : Nat → List BuyOp → List OrderResult
  | _, [] => []
  | i, op :: rest =>
      (placeOne resolveClob (submit i) maxShares maxPrice op).1 ::
        placeBuyOrdersAux resolveClob submit maxShares maxPrice (i + 1) rest

/-- Embedding of `place_buy_orders`. -/
def placeBuyOrders (resolveClob : BuyOp → Option String)
    (submit : Nat → Nat → Except String SubmitResp) (maxShares : Nat)
    (maxPrice : ℚ) (ops : List BuyOp) : List OrderResult :=
  placeBuyOrdersAux resolveClob submit maxShares maxPrice 0 ops

/-- Assoc-list lookup for the `scanning_tasks` dict of
`telegram_service.py` (chat id → registered task id). -/
def lookupChat : List (Int × Nat) → Int → Option Nat
  | [], _ => none
  | (k, v) :: rest, c => if k = c then some v else lookupChat rest c

/-- Removal of a chat key, modelling `scanning_tasks.pop(chat_id, None)`. -/
def removeChat (l : List (Int × Nat)) (c : Int) : List (Int × Nat) :=
  l.filter (fun p => p.1 ≠ c)

/-- Process state for the scan-session registry: the `scanning_tasks`
dict (modelled as an assoc list with unique keys), the set of spawned
and not-yet-cancelled scanner tasks as (chat id, task id) pairs, and a
fresh-task-id counter for `asyncio.create_task`. -/
structure SessState where
  registry : List (Int × Nat)
  liveTasks : List (Int × Nat)
  nextId : Nat
deriving DecidableEq

/-- Embedding of `scan_cmd` for chat `chat`: if the chat id is already in
`scanning_tasks`, reply "Already scanning." and change nothing; otherwise
spawn a scanner task and register it. -/
def scanCmd (st : SessState) (chat : Int) : SessState :=
  match lookupChat st.registry chat with
  | some _ => st
  | none =>
      { registry := (chat, st.nextId) :: st.registry
        liveTasks := (chat, st.nextId) :: st.liveTasks
        nextId := st.nextId + 1 }

/-- Embedding of `stop_cmd` for chat `chat`: pop the chat id from
`scanning_tasks` (with default, never raising); cancel the popped task
when one existed. -/
def stopCmd (st : SessState) (chat : Int) : SessState :=
  match lookupChat st.registry chat with
  | some tid =>
      { registry := removeChat st.registry chat
        liveTasks := st.liveTasks.filter (fun p => p.2 ≠ tid)
        nextId := st.nextId }
  | none =>
      { registry := removeChat st.registry chat
        liveTasks := st.liveTasks
        nextId := st.nextId }

/-- Number of live scanner tasks attached to one chat id. -/
def liveFor (st : SessState) (chat : Int) : Nat :=
  (st.liveTasks.filter (fun p => p.1 = chat)).length

/-- Well-formedness of the registry state, as established from the empty
initial state: every live task is exactly a registry entry, chat keys are
unique, task ids are unique, and all task ids are below the fresh
counter. -/
def SessWF (st : SessState) : Prop :=
  st.liveTasks = st.registry ∧
  (st.registry.map Prod.fst).Nodup ∧
  (st.registry.map Prod.snd).Nodup ∧
  ∀ p ∈ st.registry, p.2 < st.nextId

instance (st : SessState) : Decidable (SessWF st) := by
  unfold SessWF; infer_instance

/-- One emitted event of `monitor_trades_and_orders`: the start message,
one per-tick status message stamped with the loop-entry time offset in
seconds, and the final ended message. -/
inductive MEvent where
  | start
  | tick (t : Nat)
  | ended
deriving DecidableEq

/-- The `while time.time() - start_ts < duration_seconds` loop of
`monitor_trades_and_orders`, under the claim's idealisation of negligible
per-tick processing time: each iteration emits its tick at offset `t`,
then `asyncio.sleep(max(2, poll_interval_seconds))` advances the clock.
`fuel` bounds the recursion; `duration + 1` iterations always suffice
since the effective interval is at least 2. -/
def monitorTicks (interval2 : Nat) (dur : Nat) : Nat → Nat → List MEvent
  | 0, _ => []
  | fuel + 1, t =>
      if t < dur then MEvent.tick t :: monitorTicks interval2 dur fuel (t + interval2)
      else []

/-- The event trace of one uncancelled `monitor_trades_and_orders` run
with the given duration and poll interval (seconds): start message,
ticks, ended message. -/
def monitorEvents (dur interval : Nat) : List MEvent :=
  MEvent.start :: (monitorTicks (max 2 interval) dur (dur + 1) 0 ++ [MEvent.ended])

/-- The tick offsets of a monitor trace. -/
def tickTimes (evs : List MEvent) : List Nat :=
  evs.foldr (fun e acc => match e with | MEvent.tick t => t :: acc | _ => acc) []

/-- Per-chat settings record of `settings_store.py` (all keys present, as
`_default_settings` creates them). -/
structure ChatSettings where
  maxPriceNoTokens : ℚ
  maxOrderSize : Int
  sellTargetPrice : ℚ
  autoPlaceOrders : Bool
deriving DecidableEq

/-- Assoc-list lookup in the settings file keyed by `str(chat_id)`;
chat ids are kept as integers since `str` is injective on them. -/
def lookupSettings : List (Int × ChatSettings) → Int → Option ChatSettings
  | [], _ => none
  | (k, v) :: rest, c => if k = c then some v else lookupSettings rest c

/-- Assoc-list write `all_settings[key] = next_settings` (replace or
insert). -/
def setSettings : List (Int × ChatSettings) → Int → ChatSettings →
    List (Int × ChatSettings)
  | [], c, s => [(c, s)]
  | (k, v) :: rest, c, s =>
      if k = c then (c, s) :: rest else (k, v) :: setSettings rest c s

/-- Embedding of `increment_size_for_chat(chat_id, delta)`: load the
chat's settings (falling back to defaults), set
`maxOrderSize = max(1, current + delta)`, persist, and return the new
settings together with the persisted store. -/
def incrementSizeForChat (store : List (Int × ChatSettings))
    (defaults : ChatSettings) (chatId : Int) (delta : Int) :
    ChatSettings × List (Int × ChatSettings) :=
  let current := (lookupSettings store chatId).getD defaults
  let size := max 1 (current.maxOrderSize + delta)
  let nextS := { current with maxOrderSize := size }
  (nextS, setSettings store chatId nextS)

/-- The tradability condition exactly as the specification words it
("the expiry is strictly in the future at evaluation time"; the spec's
condition list has no empty-record guard), for comparison with
`isActiveMarket`. -/
def activeSpecStrict (m : GammaMarket) (now : Int) : Bool :=
  if m.active = some false then false
  else if m.closed = some true then false
  else if m.archived = some true then false
  else if m.acceptingOrders = some false then false
  else
    match endRaw m with
    | none => true
    | some none => true
    | some (some endT) => if now < endT then true else false

/-- The amended tradability condition: the record must be non-empty (an
empty, falsy record is rejected outright), and the expiry must not be
strictly in the past (`now ≤ end`; an expiry equal to the evaluation
instant is still treated as active). -/
def activeSpecAmended (m : GammaMarket) (now : Int) : Bool :=
  if m.nonEmpty = false then false
  else if m.active = some false then false
  else if m.closed = some true then false
  else if m.archived = some true then false
  else if m.acceptingOrders = some false then false
  else
    match endRaw m with
    | none => true
    | some none => true
    | some (some endT) => if now ≤ endT then true else false

/-! Supporting lemmas. -/

theorem deriveNoBidFallback_nonneg (m : GammaMarket) (p : ℚ)
    (h : deriveNoBidFallback m = some p) : 0 ≤ p := by
  unfold deriveNoBidFallback at h
  split at h
  · split at h
    · split at h
      · rename_i hp
        cases h
        exact hp
      · exact absurd h (by simp)
    · exact absurd h (by simp)
  · exact absurd h (by simp)

theorem analyzeMarketNo_bounds (m : GammaMarket) (now : Int) (mp : ℚ)
    (opp : Opportunity) (h : analyzeMarketNo m now mp = some opp) :
    0 < opp.noPrice ∧ opp.noPrice ≤ mp := by
  unfold analyzeMarketNo at h
  split at h
  · exact absurd h (by simp)
  · split at h
    · exact absurd h (by simp)
    · rename_i p
      split at h
      · exact absurd h (by simp)
      · rename_i hpos
        split at h
        · rename_i hle
          cases h
          exact ⟨lt_of_not_le hpos, hle⟩
        · exact absurd h (by simp)

theorem gammaEnrich_noPrice (resolve : GammaMarket → Option String)
    (m : GammaMarket) (opp : Opportunity) :
    (gammaEnrich resolve m opp).noPrice = opp.noPrice := by
  unfold gammaEnrich
  split <;> split <;> rfl

theorem gammaEligible_bounds (resolve : GammaMarket → Option String) (now : Int)
    (mp : ℚ) (ms : List GammaMarket) (o : Opportunity)
    (ho : o ∈ gammaEligible resolve now mp ms) : 0 < o.noPrice ∧ o.noPrice ≤ mp := by
  induction ms with
  | nil => exact absurd ho (by simp [gammaEligible])
  | cons m rest ih =>
      rw [gammaEligible] at ho
      cases hA : analyzeMarketNo m now mp with
      | none =>
          rw [hA] at ho
          exact ih ho
      | some opp =>
          rw [hA] at ho
          rcases List.mem_cons.mp ho with h | h
          · have hb := analyzeMarketNo_bounds m now mp opp hA
            rw [h, gammaEnrich_noPrice]
            exact hb
          · exact ih h

theorem clobAnalyze_bounds (resolveClob : ClobMarket → Option String) (mp : ℚ)
    (m : ClobMarket) (o : Opportunity) (h : clobAnalyze resolveClob mp m = some o) :
    0 < o.noPrice ∧ o.noPrice ≤ mp := by
  unfold clobAnalyze at h
  split at h
  · exact absurd h (by simp)
  · split at h
    · exact absurd h (by simp)
    · split at h
      · exact absurd h (by simp)
      · rename_i p
        split at h
        · exact absurd h (by simp)
        · rename_i hpos
          split at h
          · exact absurd h (by simp)
          · rename_i hgt
            cases h
            exact ⟨lt_of_not_le hpos, le_of_not_lt hgt⟩

theorem clobEligible_bounds (resolveClob : ClobMarket → Option String) (mp : ℚ)
    (ms : List ClobMarket) (o : Opportunity)
    (ho : o ∈ clobEligible resolveClob mp ms) : 0 < o.noPrice ∧ o.noPrice ≤ mp := by
  induction ms with
  | nil => exact absurd ho (by simp [clobEligible])
  | cons m rest ih =>
      rw [clobEligible] at ho
      cases hA : clobAnalyze resolveClob mp m with
      | none =>
          rw [hA] at ho
          exact ih ho
      | some opp =>
          rw [hA] at ho
          rcases List.mem_cons.mp ho with h | h
          · rw [h]
            exact clobAnalyze_bounds resolveClob mp m opp hA
          · exact ih h

/-! Claim theorems. -/

/-- C1: every record in the list returned by `find_eligible_markets(max_price)`
— whether produced by the primary Gamma path or by the CLOB fallback path —
has a `noPrice` that is strictly positive and at most the threshold. -/
theorem C1_find_eligible_price_bounds (resolve : GammaMarket → Option String)
    (resolveClob : ClobMarket → Option String) (now : Int) (mp : ℚ)
    (gms : List GammaMarket) (cms : List ClobMarket) :
    (∀ o ∈ gammaEligible resolve now mp gms, 0 < o.noPrice ∧ o.noPrice ≤ mp) ∧
    (∀ o ∈ clobEligible resolveClob mp cms, 0 < o.noPrice ∧ o.noPrice ≤ mp) ∧
    (∀ o ∈ (findEligibleMarkets resolve resolveClob now mp gms cms).eligible,
      0 < o.noPrice ∧ o.noPrice ≤ mp) := by
  refine ⟨fun o ho => gammaEligible_bounds resolve now mp gms o ho,
    fun o ho => clobEligible_bounds resolveClob mp cms o ho, fun o ho => ?_⟩
  simp only [findEligibleMarkets] at ho
  split at ho
  · exact gammaEligible_bounds resolve now mp gms o ho
  · exact clobEligible_bounds resolveClob mp cms o ho

/-- Gamma market with first outcome "No" and an embedded best bid of 1,
used as a concrete witness input. -/
def mNoBid : GammaMarket :=
  { nonEmpty := true,
    active := none, closed := none, archived := none, acceptingOrders := none,
    endDate := none, endDateIso := none,
    outcomes := ["No", "Yes"], bestBid := some 1, bestAsk := some 1,
    outcomePrices := [], id := some "m1", market_id := none, question := some "X",
    volume := none, volume_24h := none, volumeNum := none,
    slug := none, eventSlug := none, event_slug := none,
    condition_id := none, conditionId := none, tokens := [] }

/-- The opportunity `find_eligible_markets` produces from `mNoBid`. -/
def oppNoBid : Opportunity :=
  { marketId := some "m1", question := some "X", noPrice := 1, noTokenId := none,
    slug := none, eventSlug := none, volume24h := 0, url := none }

theorem C1_find_eligible_price_bounds_witness :
    0 < oppNoBid.noPrice ∧ oppNoBid.noPrice ≤ (1 : ℚ) :=
  (C1_find_eligible_price_bounds (fun _ => none) (fun _ => none) 0 1 [mNoBid] []).2.2
    oppNoBid (by decide)

/-- Gamma market whose "No" outcome carries a negative embedded best bid. -/
def mNegBid : GammaMarket :=
  { mNoBid with bestBid := some (-1) }

/-- C2 counterexample: on the direct `bestBid` path, `_derive_no_bid`
passes a negative `bestBid` straight through and returns a negative
number, refuting "it never returns a negative value, on any of its
derivation paths". -/
theorem C2_counterexample :
    deriveNoBid mNegBid = some (-1) ∧ ((-1 : ℚ) < 0) := by
  exact ⟨by decide, by decide⟩

/-- C2 (amended): `_derive_no_bid` returns `None` or a number `p`; on the
`outcomePrices` fallback path `0 ≤ p` holds unconditionally, and on the
`bestBid` / `1 − bestAsk` paths `0 ≤ p` holds provided the record's
`bestBid` is non-negative and its `bestAsk` is at most 1 (out-of-range
inputs propagate: a negative `bestBid` is returned as is, and
`bestAsk > 1` makes the `1 − bestAsk` path negative). -/
theorem C2_derive_no_bid_nonneg (m : GammaMarket) (p : ℚ)
    (hbb : 0 ≤ m.bestBid.getD 0) (hba : m.bestAsk.getD 0 ≤ 1)
    (h : deriveNoBid m = some p) : 0 ≤ p := by
  unfold deriveNoBid at h
  split at h
  · rename_i bb ba hd tl hB hA hO
    rw [hB] at hbb
    rw [hA] at hba
    simp only [Option.getD] at hbb hba
    split at h
    · cases h
      linarith
    · split at h
      · cases h
        exact hbb
      · exact deriveNoBidFallback_nonneg m p h
  · exact deriveNoBidFallback_nonneg m p h

theorem C2_derive_no_bid_nonneg_witness : 0 ≤ (1 : ℚ) :=
  C2_derive_no_bid_nonneg mNoBid 1 (by decide) (by decide) (by decide)

/-- C3: per `find_eligible_markets` call, the secondary (CLOB) catalog is
fetched exactly once when — and only when — the primary Gamma path produced
zero opportunities; when the primary path produced at least one opportunity
the secondary fetch does not happen at all, so the two source paths are
mutually exclusive within one call. -/
theorem C3_fallback_iff_primary_empty (resolve : GammaMarket → Option String)
    (resolveClob : ClobMarket → Option String) (now : Int) (mp : ℚ)
    (gms : List GammaMarket) (cms : List ClobMarket) :
    findEligibleMarkets resolve resolveClob now mp gms cms =
      if gammaEligible resolve now mp gms = [] then
        { eligible := clobEligible resolveClob mp cms, clobFetches := 1 }
      else
        { eligible := gammaEligible resolve now mp gms, clobFetches := 0 } := by
  simp only [findEligibleMarkets]
  by_cases hp : gammaEligible resolve now mp gms = []
  · rw [if_neg (by simp [hp]), if_pos hp]
  · rw [if_pos hp, if_neg hp]

/-- Gamma market carrying only an expiry timestamp, closing at epoch
second `t`. -/
def mExpiry (t : Int) : GammaMarket :=
  { mNoBid with endDate := some (some t) }

/-- C6 counterexample: at an expiry exactly equal to the evaluation time
the source still reports the market active (it rejects only `end < now`),
while the claimed characterisation — expiry strictly in the future —
says it must be inactive.  The claimed iff therefore fails at this
input. -/
theorem C6_counterexample :
    isActiveMarket (mExpiry 0) 0 = true ∧ activeSpecStrict (mExpiry 0) 0 = false := by
  exact ⟨by decide, by decide⟩

/-- C6 (amended): `_is_active_market` returns true for a record exactly
when the record is non-empty (an empty, falsy record is rejected
outright), the `active` flag is not explicitly false, `closed` is not
true, `archived` is not true, `acceptingOrders` is not false, and either
no expiry timestamp is present, the timestamp is unparsable, or the
expiry is not strictly in the past at evaluation time (`now ≤ end`; an
expiry equal to the evaluation instant still counts as active); in
particular an expiry timestamp one second in the past yields false. -/
theorem C6_is_active_market_char :
    (∀ (m : GammaMarket) (now : Int), isActiveMarket m now = activeSpecAmended m now) ∧
    (∀ (m : GammaMarket) (now : Int), endRaw m = some (some (now - 1)) →
      isActiveMarket m now = false) := by
  constructor
  · intro m now
    unfold isActiveMarket activeSpecAmended
    cases hE : endRaw m with
    | none => rfl
    | some v =>
        cases v with
        | none => rfl
        | some endT =>
            by_cases hlt : endT < now
            · have hnle : ¬ now ≤ endT := by omega
              simp [hlt, hnle]
            · have hle : now ≤ endT := by omega
              simp [hlt, hle]
  · intro m now hE
    unfold isActiveMarket
    rw [hE]
    have hlt : now - 1 < now := by omega
    simp [hlt]

theorem C6_is_active_market_char_witness :
    isActiveMarket (mExpiry 0) 0 = activeSpecAmended (mExpiry 0) 0 ∧
    isActiveMarket (mExpiry (-1)) 0 = false :=
  ⟨C6_is_active_market_char.1 (mExpiry 0) 0,
    C6_is_active_market_char.2 (mExpiry (-1)) 0 (by decide)⟩

/-- C9 counterexample: with `duration_seconds=30` and
`poll_interval_seconds=10` the loop emits its three ticks at the 0s, 10s
and 20s offsets — each iteration ticks first and sleeps afterwards — so
the claimed trace with ticks at the 10s/20s/30s boundaries is not the
trace the code produces. -/
theorem C9_counterexample :
    tickTimes (monitorEvents 30 10) = [0, 10, 20] ∧
    monitorEvents 30 10 ≠
      [MEvent.start, MEvent.tick 10, MEvent.tick 20, MEvent.tick 30, MEvent.ended] := by
  exact ⟨by decide, by decide⟩

/-- C9 (amended): a trade monitor run with `duration_seconds=30` and
`poll_interval_seconds=10` (absent cancellation and negligible per-tick
processing time) emits exactly one start message, then exactly three
ticks at the 0s, 10s and 20s offsets (each tick precedes its sleep), then
exactly one end message 30s in, and then performs no further activity. -/
theorem C9_monitor_trace :
    monitorEvents 30 10 =
      [MEvent.start, MEvent.tick 0, MEvent.tick 10, MEvent.tick 20, MEvent.ended] := by
  decide

theorem lookup_setSettings (l : List (Int × ChatSettings)) (c : Int) (s : ChatSettings) :
    lookupSettings (setSettings l c s) c = some s := by
  induction l with
  | nil => simp [setSettings, lookupSettings]
  | cons kv rest ih =>
      cases kv with
      | mk k v =>
          by_cases hk : k = c
          · simp [setSettings, lookupSettings, hk]
          · simp [setSettings, lookupSettings, hk, ih]

/-- C10: for every chat id and every integer delta — including negative
deltas of any magnitude — the settings returned by
`increment_size_for_chat` and the copy it persists in the store have
`maxOrderSize ≥ 1`: the new size is floor-clamped at 1. -/
theorem C10_increment_size_floor (store : List (Int × ChatSettings))
    (defaults : ChatSettings) (chatId : Int) (delta : Int) :
    1 ≤ (incrementSizeForChat store defaults chatId delta).1.maxOrderSize ∧
    lookupSettings (incrementSizeForChat store defaults chatId delta).2 chatId =
      some (incrementSizeForChat store defaults chatId delta).1 := by
  constructor
  · exact le_max_left 1 _
  · exact lookup_setSettings store chatId _

/-- C4: on a rejection whose message carries "minimum: N" with N greater
than the requested size, `place_buy_orders` retries exactly once with
size N; a second rejection is recorded as a terminal error annotated with
the retry minimum, and no further submission happens; a rejection with no
parusable minimum, or with a minimum not exceeding the requested size, is
recorded as an error with no retry at all. -/
theorem C4_retry_law (resolveClob : BuyOp → Option String)
    (submit : Nat → Except String SubmitResp) (ms : Nat) (mp : ℚ) (op : BuyOp)
    (t : String) (htid : truthyS (pyOrS op.token_id op.noTokenId) = some t) :
    (∀ e n, submit ms = Except.error e → minimumFrom e = some n → ms < n →
      (placeOne resolveClob submit ms mp op).2 = [ms, n]) ∧
    (∀ e n e2, submit ms = Except.error e → minimumFrom e = some n → ms < n →
      submit n = Except.error e2 →
      (placeOne resolveClob submit ms mp op).1.status = OStatus.error ∧
      (placeOne resolveClob submit ms mp op).1.error = some (retryFailMsg n e2) ∧
      (placeOne resolveClob submit ms mp op).2 = [ms, n]) ∧
    (∀ e, submit ms = Except.error e →
      (minimumFrom e = none ∨ ∀ n, minimumFrom e = some n → n ≤ ms) →
      (placeOne resolveClob submit ms mp op).2 = [ms] ∧
      (placeOne resolveClob submit ms mp op).1.status = OStatus.error ∧
      (placeOne resolveClob submit ms mp op).1.error = some e) := by
  refine ⟨?_, ?_, ?_⟩
  · intro e n hsub hmin hlt
    simp only [placeOne, htid, hsub, hmin, if_pos hlt]
    cases hr : submit n <;> simp [hr]
  · intro e n e2 hsub hmin hlt hsub2
    simp only [placeOne, htid, hsub, hmin, if_pos hlt, hsub2]
    exact ⟨trivial, trivial, trivial⟩
  · intro e hsub hmin
    rcases hmin with hnone | hall
    · simp only [placeOne, htid, hsub, hnone]
      exact ⟨trivial, trivial, trivial⟩
    · cases hm : minimumFrom e with
      | none =>
          simp only [placeOne, htid, hsub, hm]
          exact ⟨trivial, trivial, trivial⟩
      | some n =>
          have hnle : ¬ ms < n := by
            have := hall n hm
            omega
          simp only [placeOne, htid, hsub, hm, if_neg hnle]
          exact ⟨trivial, trivial, trivial⟩

/-- Opportunity dict with an embedded token id, for concrete runs. -/
def opTok : BuyOp :=
  { token_id := some "tok", noTokenId := none, price := none }

/-- Submission oracle that rejects size 5 with an exchange minimum of 25
and rejects everything else with a plain message. -/
def submitReject (sz : Nat) : Except String SubmitResp :=
  if sz = 5 then Except.error "Size (5) lower than the minimum: 25"
  else Except.error "order rejected again"

theorem C4_retry_law_witness :
    (placeOne (fun _ => none) submitReject 5 1 opTok).2 = [5, 25] ∧
    (placeOne (fun _ => none) submitReject 5 1 opTok).1.status = OStatus.error ∧
    (placeOne (fun _ => none) submitReject 5 1 opTok).1.error =
      some (retryFailMsg 25 "order rejected again") :=
  have h := C4_retry_law (fun _ => none) submitReject 5 1 opTok "tok" (by decide)
  have h2 := h.2.1 "Size (5) lower than the minimum: 25" 25 "order rejected again"
    rfl (by decide) (by decide) rfl
  ⟨h2.2.2, h2.1, h2.2.1⟩

/-- C7: `place_buy_orders` is a best-effort batch — it returns exactly
one result per input opportunity, each with status submitted or error; an
opportunity whose token id cannot be resolved yields an error result
tagged "Missing token_id" while the remaining opportunities are still
processed, so no single opportunity's failure aborts the batch. -/
theorem C7_batch_best_effort (resolveClob : BuyOp → Option String)
    (submit : Nat → Nat → Except String SubmitResp) (ms : Nat) (mp : ℚ) :
    (∀ ops, (placeBuyOrders resolveClob submit ms mp ops).length = ops.length) ∧
    (∀ ops r, r ∈ placeBuyOrders resolveClob submit ms mp ops →
      r.status = OStatus.submitted ∨ r.status = OStatus.error) ∧
    (∀ i op rest, truthyS (pyOrS op.token_id op.noTokenId) = none →
      truthyS (resolveClob op) = none →
      placeBuyOrdersAux resolveClob submit ms mp i (op :: rest) =
        { op := op, status := OStatus.error, order_id := none, token_id := none,
          usedPrice := none, raw := none, retryWithMin := none,
          error := some "Missing token_id" } ::
          placeBuyOrdersAux resolveClob submit ms mp (i + 1) rest) := by
  have hlen : ∀ (i : Nat) (ops : List BuyOp),
      (placeBuyOrdersAux resolveClob submit ms mp i ops).length = ops.length := by
    intro i ops
    induction ops generalizing i with
    | nil => rfl
    | cons op rest ih => simp [placeBuyOrdersAux, ih]
  refine ⟨fun ops => hlen 0 ops, ?_, ?_⟩
  · intro ops r _
    cases hs : r.status
    · exact Or.inl rfl
    · exact Or.inr rfl
  · intro i op rest h1 h2
    simp only [placeBuyOrdersAux, placeOne, h1, h2]

/-- Opportunity dict with no token id anywhere, for concrete runs. -/
def opNoTok : BuyOp :=
  { token_id := none, noTokenId := none, price := none }

theorem C7_batch_best_effort_witness :
    (placeBuyOrders (fun _ => none) (fun _ _ => Except.error "x") 5 1
      [opNoTok, opNoTok]).length = 2 ∧
    placeBuyOrdersAux (fun _ => none) (fun _ _ => Except.error "x") 5 1 0
      [opNoTok] =
      [{ op := opNoTok, status := OStatus.error, order_id := none, token_id := none,
         usedPrice := none, raw := none, retryWithMin := none,
         error := some "Missing token_id" }] :=
  have h := C7_batch_best_effort (fun _ => none) (fun _ _ => Except.error "x") 5 1
  ⟨h.1 [opNoTok, opNoTok], by rw [h.2.2 0 opNoTok [] (by decide) (by decide)]; rfl⟩

/-- Gamma market whose embedded token array already carries the target
"NO" outcome with id "t1", and which also carries an event slug. -/
def mEmbedded : GammaMarket :=
  { mNoBid with
    tokens := [{ outcome := some "NO", token_id := some "t1", asset_id := none,
                 tokenId := none, id := none }],
    eventSlug := some "e" }

/-- Network oracle whose events-by-slug endpoint answers slug "e" with a
market whose "NO" token id is "net-id". -/
def netCx : Net :=
  { eventsBySlug := fun s =>
      if s = "e" then
        some [{ tokens := [{ outcome := some "NO", token_id := some "net-id",
                             asset_id := none, tokenId := none, id := none }] }]
      else none
    marketsBySlug := fun _ => none
    marketsByCond := fun _ => none }

/-- C5 counterexample: `mEmbedded`'s own token array carries the target
"NO" id "t1", yet `resolve_no_token_id` performs a network call (the
events-by-slug lookup) and returns whatever the network answers
("net-id", not "t1") — the resolver has no embedded-token strategy, so
the claimed short-circuit with no network call fails on this record. -/
theorem C5_counterexample :
    scanTokens (mEmbedded.tokens) = some "t1" ∧
    resolveNoTokenId netCx "https://gamma-api.polymarket.com" mEmbedded =
      (some "net-id", [NetCall.events "e"]) ∧
    (some "net-id" : Option String) ≠ some "t1" := by
  exact ⟨by decide, by decide, by decide⟩

/-- C5 (amended): `resolve_no_token_id` tries its lookup strategies in a
fixed order — events by event slug, then markets by market slug, then
markets by condition id — performing one network call per attempted
strategy and returning on the first success, but it never inspects the
record's own embedded token array.  The embedded-token short-circuit
exists only in the CLOB fallback branch of `find_eligible_markets`: when
a record's token array is non-empty, that branch reads the token id from
the record itself and its result is independent of the resolver (no
resolver call influences it). -/
theorem C5_resolver_order (net : Net) (base : String) (m : GammaMarket) :
    (∀ s tid, base ≠ "" → truthyS (pyOrS m.eventSlug m.event_slug) = some s →
      (net.eventsBySlug s).bind scanMarkets = some tid →
      resolveNoTokenId net base m = (some tid, [NetCall.events s])) ∧
    (∀ s s2 tid, base ≠ "" → truthyS (pyOrS m.eventSlug m.event_slug) = some s →
      (net.eventsBySlug s).bind scanMarkets = none →
      truthyS m.slug = some s2 →
      (net.marketsBySlug s2).bind scanMarkets = some tid →
      resolveNoTokenId net base m =
        (some tid, [NetCall.events s, NetCall.marketsSlug s2])) ∧
    (∀ (r1 r2 : ClobMarket → Option String) (mp : ℚ) (cm : ClobMarket),
      cm.tokens ≠ [] → clobAnalyze r1 mp cm = clobAnalyze r2 mp cm) := by
  refine ⟨?_, ?_, ?_⟩
  · intro s tid hbase hev hscan
    simp only [resolveNoTokenId, if_neg hbase, hev, hscan]
  · intro s s2 tid hbase hev hscan hslug hscan2
    simp only [resolveNoTokenId, if_neg hbase, hev, hscan, resolveStep2, hslug, hscan2]
    rfl
  · intro r1 r2 mp cm htok
    have hpt : clobPriceToken r1 cm = clobPriceToken r2 cm := by
      unfold clobPriceToken
      rw [if_pos htok, if_pos htok]
    unfold clobAnalyze
    rw [hpt]

/-- CLOB market with a non-empty embedded token array, for concrete runs. -/
def cmTok : ClobMarket :=
  { closed := none, archived := none, condition_id := some "c1", conditionId := none,
    id := none, question := some "Q", title := none,
    tokens := [{ outcome := some "No", price := some 1, lastPrice := none,
                 last_price := none, bestOffer := none, best_offer := none,
                 bestBid := none, token_id := some "tk", tokenId := none }],
    outcomes := [], volume := none, slug := none, eventSlug := none }

theorem C5_resolver_order_witness :
    resolveNoTokenId netCx "https://gamma-api.polymarket.com" mEmbedded =
      (some "net-id", [NetCall.events "e"]) ∧
    clobAnalyze (fun _ => some "other") 1 cmTok = clobAnalyze (fun _ => none) 1 cmTok :=
  have h := C5_resolver_order netCx "https://gamma-api.polymarket.com" mEmbedded
  ⟨h.1 "e" "net-id" (by decide) (by decide) (by decide),
    (C5_resolver_order netCx "" mNoBid).2.2 (fun _ => some "other") (fun _ => none) 1
      cmTok (by decide)⟩

theorem lookupChat_none_iff (l : List (Int × Nat)) (c : Int) :
    lookupChat l c = none ↔ c ∉ l.map Prod.fst := by
  induction l with
  | nil => simp [lookupChat]
  | cons kv rest ih =>
      cases kv with
      | mk k v =>
          by_cases hk : k = c
          · subst hk
            simp [lookupChat]
          · simp only [lookupChat, if_neg hk, List.map_cons, List.mem_cons]
            rw [ih]
            constructor
            · intro h hmem
              rcases hmem with h1 | h1
              · exact hk h1.symm
              · exact h h1
            · intro h hmem
              exact h (Or.inr hmem)

theorem mem_of_lookupChat (l : List (Int × Nat)) (c : Int) (v : Nat)
    (h : lookupChat l c = some v) : (c, v) ∈ l := by
  induction l with
  | nil => exact absurd h (by simp [lookupChat])
  | cons kv rest ih =>
      cases kv with
      | mk k w =>
          by_cases hk : k = c
          · subst hk
            have hw : w = v := by simpa [lookupChat] using h
            rw [← hw]
            exact List.mem_cons_self _ _
          · simp only [lookupChat, if_neg hk] at h
            exact List.mem_cons_of_mem _ (ih h)

theorem filter_key_eq_nil (l : List (Int × Nat)) (c : Int)
    (h : c ∉ l.map Prod.fst) : l.filter (fun p => p.1 = c) = [] := by
  induction l with
  | nil => rfl
  | cons kv rest ih =>
      simp only [List.map_cons, List.mem_cons] at h
      push_neg at h
      simp only [List.filter_cons]
      rw [if_neg (by simpa using fun he => h.1 he.symm)]
      exact ih h.2

theorem length_filter_key (l : List (Int × Nat)) (c : Int)
    (hnd : (l.map Prod.fst).Nodup) :
    (l.filter (fun p => p.1 = c)).length =
      if (lookupChat l c).isSome then 1 else 0 := by
  induction l with
  | nil => simp [lookupChat]
  | cons kv rest ih =>
      cases kv with
      | mk k v =>
          simp only [List.map_cons, List.nodup_cons] at hnd
          by_cases hk : k = c
          · subst hk
            simp only [List.filter_cons, lookupChat, if_pos rfl]
            rw [if_pos (by simp)]
            simp [filter_key_eq_nil rest k hnd.1]
          · simp only [List.filter_cons, lookupChat, if_neg hk]
            rw [if_neg (by simpa using hk)]
            exact ih hnd.2

theorem removeChat_of_absent (l : List (Int × Nat)) (c : Int)
    (h : c ∉ l.map Prod.fst) : removeChat l c = l := by
  unfold removeChat
  apply List.filter_eq_self.mpr
  intro p hp
  have hne : p.1 ≠ c := fun he => h (List.mem_map.mpr ⟨p, hp, he⟩)
  simpa using hne

theorem stop_filters_agree (st : SessState) (c : Int) (tid : Nat)
    (h : SessWF st) (hc : lookupChat st.registry c = some tid) :
    st.registry.filter (fun p => p.2 ≠ tid) = removeChat st.registry c := by
  obtain ⟨_, hk, hs, _⟩ := h
  have hmem : (c, tid) ∈ st.registry := mem_of_lookupChat _ _ _ hc
  have hinjk := List.inj_on_of_nodup_map hk
  have hinjs := List.inj_on_of_nodup_map hs
  unfold removeChat
  apply List.filter_congr
  intro p hp
  by_cases h1 : p.1 = c
  · have hpe : p = (c, tid) := hinjk hp hmem (by simpa using h1)
    rw [hpe]
    simp
  · have h2 : p.2 ≠ tid := by
      intro he
      exact h1 (congrArg Prod.fst (hinjs hp hmem (by simpa using he)))
    simp [h1, h2]

theorem sessWF_scan (st : SessState) (c : Int) (h : SessWF st) :
    SessWF (scanCmd st c) := by
  obtain ⟨hlr, hk, hs, hb⟩ := h
  unfold scanCmd
  cases hc : lookupChat st.registry c with
  | some v => exact ⟨hlr, hk, hs, hb⟩
  | none =>
      refine ⟨by rw [hlr], ?_, ?_, ?_⟩
      · simp only [List.map_cons, List.nodup_cons]
        exact ⟨(lookupChat_none_iff _ _).mp hc, hk⟩
      · simp only [List.map_cons, List.nodup_cons]
        refine ⟨fun hmem => ?_, hs⟩
        rcases List.mem_map.mp hmem with ⟨p, hp, hpe⟩
        have := hb p hp
        omega
      · intro p hp
        rcases List.mem_cons.mp hp with h1 | h1
        · rw [h1]
          exact Nat.lt_succ_self _
        · exact Nat.lt_succ_of_lt (hb p h1)

theorem sessWF_stop (st : SessState) (c : Int) (h : SessWF st) :
    SessWF (stopCmd st c) := by
  have h' := h
  obtain ⟨hlr, hk, hs, hb⟩ := h'
  cases hc : lookupChat st.registry c with
  | none =>
      have hstop : stopCmd st c =
          { registry := removeChat st.registry c, liveTasks := st.liveTasks,
            nextId := st.nextId } := by
        unfold stopCmd
        rw [hc]
      have hrm : removeChat st.registry c = st.registry :=
        removeChat_of_absent _ _ ((lookupChat_none_iff _ _).mp hc)
      rw [hstop, hrm]
      exact ⟨hlr, hk, hs, hb⟩
  | some tid =>
      have hstop : stopCmd st c =
          { registry := removeChat st.registry c,
            liveTasks := st.liveTasks.filter (fun p => p.2 ≠ tid),
            nextId := st.nextId } := by
        unfold stopCmd
        rw [hc]
      have hagree := stop_filters_agree st c tid h hc
      have hsub : List.Sublist (removeChat st.registry c) st.registry :=
        List.filter_sublist _
      rw [hstop]
      refine ⟨?_, ?_, ?_, ?_⟩
      · rw [hlr]
        exact hagree
      · exact List.Nodup.sublist (hsub.map Prod.fst) hk
      · exact List.Nodup.sublist (hsub.map Prod.snd) hs
      · intro p hp
        exact hb p (hsub.subset hp)

theorem scanCmd_of_some (st : SessState) (c : Int) (v : Nat)
    (h : lookupChat st.registry c = some v) : scanCmd st c = st := by
  unfold scanCmd
  rw [h]

theorem liveFor_eq (st : SessState) (c : Int) (h : SessWF st) :
    liveFor st c = if (lookupChat st.registry c).isSome then 1 else 0 := by
  obtain ⟨hlr, hk, _, _⟩ := h
  unfold liveFor
  rw [hlr]
  exact length_filter_key st.registry c hk

theorem lookupChat_scan_isSome (st : SessState) (c : Int) :
    (lookupChat (scanCmd st c).registry c).isSome := by
  unfold scanCmd
  cases hc : lookupChat st.registry c with
  | some v => simp [hc]
  | none => simp [lookupChat]

/-- C8: the session registry is idempotent per chat id — starting a scan
for a chat id that already has a live task leaves exactly one live task
for that id (the second start creates nothing), stopping a chat id with
no live task is a no-op that does not raise, the registry well-formedness
(at most one registered task per chat id, each spawned task registered at
most once) is preserved by both commands, and at most one scan task per
chat id is ever live. -/
theorem C8_registry_idempotent :
    (∀ (st : SessState) (c : Int), SessWF st →
      liveFor (scanCmd (scanCmd st c) c) c = 1) ∧
    (∀ (st : SessState) (c : Int), lookupChat st.registry c = none →
      stopCmd st c = st) ∧
    (∀ (st : SessState) (c : Int), SessWF st →
      SessWF (scanCmd st c) ∧ SessWF (stopCmd st c)) ∧
    (∀ (st : SessState) (c : Int), SessWF st → liveFor st c ≤ 1) := by
  refine ⟨?_, ?_, fun st c h => ⟨sessWF_scan st c h, sessWF_stop st c h⟩, ?_⟩
  · intro st c h
    have h1 := sessWF_scan st c h
    obtain ⟨v, hv⟩ := Option.isSome_iff_exists.mp (lookupChat_scan_isSome st c)
    rw [scanCmd_of_some (scanCmd st c) c v hv]
    rw [liveFor_eq (scanCmd st c) c h1, hv]
    rfl
  · intro st c hc
    have hrm : removeChat st.registry c = st.registry :=
      removeChat_of_absent _ _ ((lookupChat_none_iff _ _).mp hc)
    unfold stopCmd
    rw [hc, hrm]
  · intro st c h
    rw [liveFor_eq st c h]
    split
    · exact le_refl 1
    · exact Nat.zero_le 1

theorem C8_registry_idempotent_witness :
    liveFor (scanCmd (scanCmd { registry := [], liveTasks := [], nextId := 0 } 7) 7) 7
        = 1 ∧
    stopCmd { registry := [], liveTasks := [], nextId := 0 } 7 =
      { registry := [], liveTasks := [], nextId := 0 } ∧
    liveFor { registry := [], liveTasks := [], nextId := 0 } 7 ≤ 1 :=
  ⟨C8_registry_idempotent.1 { registry := [], liveTasks := [], nextId := 0 } 7
      (by decide),
    C8_registry_idempotent.2.1 { registry := [], liveTasks := [], nextId := 0 } 7
      (by decide),
    C8_registry_idempotent.2.2.2 { registry := [], liveTasks := [], nextId := 0 } 7
      (by decide)⟩

end PolyBot
